import Mathlib

/-!
Verification of the validation-and-conversion layer of the chain-nodelib
transaction library (`types.ts` and the transaction builder option types).

The JavaScript runtime values handled by the `ow` validators are modelled by
the inductive `JSValue`; objects are association lists of string-keyed
fields, JS numbers are rationals, and `bignumber.js` values (arbitrary
precision decimal numbers with special values `NaN`, `Infinity`,
`-Infinity`) are modelled by `BNVal`, a signed integer significand together
with a count of decimal places.
-/

/-- A `bignumber.js` value: `fin m d` denotes the decimal number
`m / 10^d`; `nan`, `posInf`, `negInf` are the special values. -/
inductive BNVal : Type where
  | fin (m : Int) (d : Nat)
  | nan
  | posInf
  | negInf
deriving DecidableEq, Repr

/-- The rational value of a finite BigNumber, `none` for the specials. -/
def BNVal.toRat? : BNVal → Option ℚ
  | .fin m d => some ((m : ℚ) / (10 : ℚ) ^ d)
  | _ => none

/-- A JavaScript runtime value, as far as the validators inspect it:
strings, numbers, BigNumber instances, plain objects (association lists of
fields), and anything else (buffers, `null`, functions, ...). -/
inductive JSValue : Type where
  | str (s : String)
  | num (q : ℚ)
  | bigNum (b : BNVal)
  | obj (fields : List (String × JSValue))
  | other

/-- Property lookup on a JS object (association list). -/
def jsLookup (k : String) : List (String × JSValue) → Option JSValue
  | [] => none
  | (k', v) :: rest => if k' = k then some v else jsLookup k rest

/-- `MAX_COIN`. Modelled from the spec: the constant `MAX_COIN_BN` is
imported from `./init`, which is not among the sources; the spec fixes
only that it is a protocol-wide ceiling (the maximum possible circulating
supply in base units).  The concrete numeral is the protocol's total
supply in base units; no theorem below depends on which positive value it
is. -/
def MAX_COIN_INT : Int := 10000000000000000000

/-- The ceiling as a rational value (the value of the `MAX_COIN_BN`
BigNumber). -/
def MAX_COIN_BN : ℚ := (MAX_COIN_INT : ℚ)

/-- `BigNumber.prototype.isInteger()`: true iff the value is finite with no
fractional part. -/
def bnIsInteger : BNVal → Bool
  | .fin m d => decide ((10 : Int) ^ d ∣ m)
  | _ => false

/-- `value.isGreaterThanOrEqualTo(0)`; comparisons with `NaN` are false. -/
def bnIsGreaterThanOrEqualToZero : BNVal → Bool
  | .fin m _ => decide (0 ≤ m)
  | .posInf => true
  | _ => false

/-- `value.isLessThanOrEqualTo(MAX_COIN_BN)`; comparisons with `NaN` are
false.  `m / 10^d ≤ MAX_COIN` is decided as the integer comparison
`m ≤ MAX_COIN * 10^d`. -/
def bnIsLessThanOrEqualToMaxCoin : BNVal → Bool
  | .fin m d => decide (m ≤ MAX_COIN_INT * 10 ^ d)
  | .negInf => true
  | _ => false

lemma bnIsLessThanOrEqualToMaxCoin_fin_iff (m : Int) (d : Nat) :
    bnIsLessThanOrEqualToMaxCoin (.fin m d) = true ↔
      (m : ℚ) / (10 : ℚ) ^ d ≤ MAX_COIN_BN := by
  have h10 : (0 : ℚ) < (10 : ℚ) ^ d := by positivity
  simp only [bnIsLessThanOrEqualToMaxCoin, decide_eq_true_eq, MAX_COIN_BN,
    div_le_iff₀ h10]
  constructor <;> intro h <;> exact_mod_cast h

/-- `owBigNumber`: `ow.object` plus `BigNumber.isBigNumber(value)`. -/
def owBigNumber : JSValue → Bool
  | .bigNum _ => true
  | _ => false

/-- `owCoin`: `ow.object` validated by
`BigNumber.isBigNumber(value) && value.isInteger() &&
value.isGreaterThanOrEqualTo(0) && value.isLessThanOrEqualTo(MAX_COIN_BN)`.
A non-object or a plain (non-BigNumber) object fails the conjunction at its
first clause. -/
def owCoin : JSValue → Bool
  | .bigNum b =>
      bnIsInteger b && bnIsGreaterThanOrEqualToZero b &&
        bnIsLessThanOrEqualToMaxCoin b
  | _ => false

lemma bnIsInteger_fin_iff (m : Int) (d : Nat) :
    bnIsInteger (.fin m d) = true ↔ ((m : ℚ) / (10 : ℚ) ^ d).den = 1 := by
  simp only [bnIsInteger, decide_eq_true_eq]
  constructor
  · rintro ⟨k, rfl⟩
    have h10 : ((10 : ℚ) ^ d) ≠ 0 := by positivity
    have h : (((10 : Int) ^ d * k : Int) : ℚ) / (10 : ℚ) ^ d = (k : ℚ) := by
      push_cast
      field_simp
    rw [h]
    exact Rat.den_intCast k
  · intro hden
    set q : ℚ := (m : ℚ) / (10 : ℚ) ^ d with hq
    have hqeq : (q.num : ℚ) = q := by
      conv_rhs => rw [← Rat.num_div_den q, hden]
      simp
    refine ⟨q.num, ?_⟩
    have h10 : ((10 : ℚ) ^ d) ≠ 0 := by positivity
    have : (m : ℚ) = (q.num : ℚ) * (10 : ℚ) ^ d := by
      rw [hqeq, hq]
      field_simp
    have hcast : (m : ℚ) = (((10 : Int) ^ d * q.num : Int) : ℚ) := by
      push_cast
      linarith [this]
    exact_mod_cast hcast

/-- C1.  The coin-amount validator `owCoin` accepts a candidate value `v`
iff `v` is a BigNumber whose value is a true integer (no fractional part),
non-negative, and at most `MAX_COIN_BN`; every candidate that is not a
BigNumber, or is negative, non-integer, `NaN`, infinite, or above the
ceiling, is rejected. -/
theorem owCoin_accepts_iff (v : JSValue) :
    owCoin v = true ↔
      ∃ b : BNVal, v = JSValue.bigNum b ∧
        ∃ q : ℚ, b.toRat? = some q ∧ q.den = 1 ∧ 0 ≤ q ∧ q ≤ MAX_COIN_BN := by
  cases v with
  | bigNum b =>
      cases b with
      | fin m d =>
          simp only [owCoin, Bool.and_eq_true]
          constructor
          · rintro ⟨⟨hint, hge⟩, hle⟩
            refine ⟨.fin m d, rfl, (m : ℚ) / (10 : ℚ) ^ d, rfl, ?_, ?_, ?_⟩
            · exact (bnIsInteger_fin_iff m d).mp hint
            · have hm : (0 : Int) ≤ m := by
                simpa [bnIsGreaterThanOrEqualToZero] using hge
              have h10 : (0 : ℚ) < (10 : ℚ) ^ d := by positivity
              exact div_nonneg (by exact_mod_cast hm) (le_of_lt h10)
            · exact (bnIsLessThanOrEqualToMaxCoin_fin_iff m d).mp hle
          · rintro ⟨b, hb, q, hq, hden, hge, hle⟩
            obtain rfl : b = .fin m d := by
              injection hb with h
              exact h.symm
            obtain rfl : q = (m : ℚ) / (10 : ℚ) ^ d := by
              simpa [BNVal.toRat?] using hq.symm
            refine ⟨⟨(bnIsInteger_fin_iff m d).mpr hden, ?_⟩, ?_⟩
            · have h10 : (0 : ℚ) < (10 : ℚ) ^ d := by positivity
              have : (0 : ℚ) ≤ (m : ℚ) := by
                by_contra hneg
                push_neg at hneg
                have : (m : ℚ) / (10 : ℚ) ^ d < 0 := div_neg_of_neg_of_pos hneg h10
                linarith
              have hm : (0 : Int) ≤ m := by exact_mod_cast this
              simpa [bnIsGreaterThanOrEqualToZero] using hm
            · exact (bnIsLessThanOrEqualToMaxCoin_fin_iff m d).mpr hle
      | nan =>
          simp [owCoin, bnIsInteger, BNVal.toRat?]
      | posInf =>
          simp [owCoin, bnIsInteger, BNVal.toRat?]
      | negInf =>
          simp [owCoin, bnIsInteger, BNVal.toRat?]
  | str s => simp [owCoin]
  | num q => simp [owCoin]
  | obj o => simp [owCoin]
  | other => simp [owCoin]

/-- The `NetworkEnum` of `network/network.ts`. -/
inductive NetworkEnum : Type where
  | Mainnet
  | Testnet
  | Devnet
deriving DecidableEq, Repr

/-- Character-list core of JS `String.prototype.startsWith`: does the
second list start with the first? -/
def listStartsWith : List Char → List Char → Bool
  | [], _ => true
  | _ :: _, [] => false
  | p :: ps, c :: cs => (p = c) && listStartsWith ps cs

/-- `value.startsWith(pat)`. -/
def jsStartsWith (value pat : String) : Bool :=
  listStartsWith pat.data value.data

/-- The network-resolution part of `validateTransferAddress`
(lines 77–90): the chain of `startsWith` tests, in source order;
`none` models the `return false` branch. -/
def getTransferAddressNetwork (value : String) : Option NetworkEnum :=
  if jsStartsWith value "cro" then some NetworkEnum.Mainnet
  else if jsStartsWith value "tcro" then some NetworkEnum.Testnet
  else if jsStartsWith value "dcro" then some NetworkEnum.Devnet
  else none

/-- `validateTransferAddress`, parametrised by the external
`native.address.isTransferAddressValid` engine: resolve the network from
the prefix, return `false` outright when no prefix matches, otherwise
delegate to the engine with the resolved network. -/
def validateTransferAddress (isTransferAddressValid : String → NetworkEnum → Bool)
    (value : String) : Bool :=
  match getTransferAddressNetwork value with
  | none => false
  | some network => isTransferAddressValid value network

/-- `owTransferAddress`: `ow.string` validated by
`validateTransferAddress(value)`. -/
def owTransferAddress (isTransferAddressValid : String → NetworkEnum → Bool) :
    JSValue → Bool
  | .str s => validateTransferAddress isTransferAddressValid s
  | _ => false

lemma listStartsWith_cons (p : Char) (ps l : List Char)
    (h : listStartsWith (p :: ps) l = true) :
    ∃ cs, l = p :: cs ∧ listStartsWith ps cs = true := by
  cases l with
  | nil => simp [listStartsWith] at h
  | cons c cs =>
      simp only [listStartsWith, Bool.and_eq_true, decide_eq_true_eq] at h
      exact ⟨cs, by rw [h.1], h.2⟩

lemma startsWith_tcro_not_cro (s : String) (h : jsStartsWith s "tcro" = true) :
    jsStartsWith s "cro" = false := by
  have hd : ("tcro").data = ['t', 'c', 'r', 'o'] := rfl
  unfold jsStartsWith at h ⊢
  rw [hd] at h
  obtain ⟨cs, hcs, -⟩ := listStartsWith_cons 't' ['c', 'r', 'o'] s.data h
  rw [hcs]
  simp [listStartsWith]

lemma startsWith_dcro_not_cro (s : String) (h : jsStartsWith s "dcro" = true) :
    jsStartsWith s "cro" = false := by
  have hd : ("dcro").data = ['d', 'c', 'r', 'o'] := rfl
  unfold jsStartsWith at h ⊢
  rw [hd] at h
  obtain ⟨cs, hcs, -⟩ := listStartsWith_cons 'd' ['c', 'r', 'o'] s.data h
  rw [hcs]
  simp [listStartsWith]

lemma startsWith_dcro_not_tcro (s : String) (h : jsStartsWith s "dcro" = true) :
    jsStartsWith s "tcro" = false := by
  have hd : ("dcro").data = ['d', 'c', 'r', 'o'] := rfl
  unfold jsStartsWith at h ⊢
  rw [hd] at h
  obtain ⟨cs, hcs, -⟩ := listStartsWith_cons 'd' ['c', 'r', 'o'] s.data h
  rw [hcs]
  simp [listStartsWith]

/-- C2.  The transfer-address dispatcher resolves Mainnet iff the string
starts with `cro`, Testnet iff it starts with `tcro`, Devnet iff it starts
with `dcro` (the checks, made in that order, are mutually exclusive); when
a prefix matches, the full validator delegates to the external engine with
the resolved network, and when none matches it returns `false` no matter
what the external engine would say — the engine is never consulted. -/
theorem validateTransferAddress_network_dispatch :
    (∀ s : String,
        getTransferAddressNetwork s = some NetworkEnum.Mainnet ↔
          jsStartsWith s "cro" = true) ∧
    (∀ s : String,
        getTransferAddressNetwork s = some NetworkEnum.Testnet ↔
          jsStartsWith s "tcro" = true) ∧
    (∀ s : String,
        getTransferAddressNetwork s = some NetworkEnum.Devnet ↔
          jsStartsWith s "dcro" = true) ∧
    (∀ (engine : String → NetworkEnum → Bool) (s : String) (n : NetworkEnum),
        getTransferAddressNetwork s = some n →
          validateTransferAddress engine s = engine s n) ∧
    (∀ (engine : String → NetworkEnum → Bool) (s : String),
        getTransferAddressNetwork s = none →
          validateTransferAddress engine s = false) := by
  refine ⟨?_, ?_, ?_, ?_, ?_⟩
  · intro s
    by_cases h1 : jsStartsWith s "cro" = true
    · simp [getTransferAddressNetwork, h1]
    · by_cases h2 : jsStartsWith s "tcro" = true <;>
        by_cases h3 : jsStartsWith s "dcro" = true <;>
          simp [getTransferAddressNetwork, h1, h2, h3]
  · intro s
    by_cases h2 : jsStartsWith s "tcro" = true
    · have h1 := startsWith_tcro_not_cro s h2
      simp [getTransferAddressNetwork, h1, h2]
    · by_cases h1 : jsStartsWith s "cro" = true <;>
        by_cases h3 : jsStartsWith s "dcro" = true <;>
          simp [getTransferAddressNetwork, h1, h2, h3]
  · intro s
    by_cases h3 : jsStartsWith s "dcro" = true
    · have h1 := startsWith_dcro_not_cro s h3
      have h2 := startsWith_dcro_not_tcro s h3
      simp [getTransferAddressNetwork, h1, h2, h3]
    · by_cases h1 : jsStartsWith s "cro" = true <;>
        by_cases h2 : jsStartsWith s "tcro" = true <;>
          simp [getTransferAddressNetwork, h1, h2, h3]
  · intro engine s n h
    simp [validateTransferAddress, h]
  · intro engine s h
    simp [validateTransferAddress, h]

/-- Witness for C2: `"tcro1abc"` resolves to Testnet, and `"xyz"` (no
recognised prefix) is rejected even by a validator whose external engine
accepts everything. -/
theorem validateTransferAddress_network_dispatch_witness :
    getTransferAddressNetwork "tcro1abc" = some NetworkEnum.Testnet ∧
      validateTransferAddress (fun _ _ => true) "xyz" = false := by
  constructor
  · exact (validateTransferAddress_network_dispatch.2.1 "tcro1abc").mpr (by decide)
  · exact validateTransferAddress_network_dispatch.2.2.2.2
      (fun _ _ => true) "xyz" (by decide)

/-- `validateStakingAddress` (lines 97–99): a direct delegation to the
external `native.address.isStakingAddressValid` engine — unlike the
transfer-address path there is no prefix/network resolution here. -/
def validateStakingAddress (isStakingAddressValid : String → Bool)
    (value : String) : Bool :=
  isStakingAddressValid value

/-- `owStakingAddress`: `ow.string` validated by
`validateStakingAddress(value)`. -/
def owStakingAddress (isStakingAddressValid : String → Bool) : JSValue → Bool
  | .str s => validateStakingAddress isStakingAddressValid s
  | _ => false

/-- A required field: the `ow` predicates without `optional` fail on an
absent (undefined) property. -/
def requiredField (p : JSValue → Bool) : Option JSValue → Bool
  | some v => p v
  | none => false

/-- An `ow.optional.…` field: an absent property passes. -/
def optionalField (p : JSValue → Bool) : Option JSValue → Bool
  | some v => p v
  | none => true

/-- `ow.string`. -/
def jsIsString : JSValue → Bool
  | .str _ => true
  | _ => false

/-- `ow.number.integer` (used for `owUnixTimestamp`): any integer-valued
number. -/
def owNumberInteger : JSValue → Bool
  | .num q => q.den == 1
  | _ => false

/-- `ow.number.integer.greaterThan(0)`. -/
def owNumberIntegerGreaterThanZero : JSValue → Bool
  | .num q => (q.den == 1) && decide (0 < q)
  | _ => false

/-- `ow.number.int16`: an integer in `-32768 .. 32767` (used for
`owAccountNonce` and the unbond-builder nonce). -/
def owNumberInt16 : JSValue → Bool
  | .num q => (q.den == 1) && decide (-32768 ≤ q) && decide (q ≤ 32767)
  | _ => false

/-- `ow.object.exactShape(schema)`: the candidate must be an object, every
property key of the object must be declared in the schema, and every
schema entry's predicate must accept the (possibly absent) property. -/
def exactShape (schema : List (String × (Option JSValue → Bool))) : JSValue → Bool
  | .obj fields =>
      fields.all (fun kv => schema.any (fun sc => sc.fst == kv.fst)) &&
        schema.all (fun sc => sc.snd (jsLookup sc.fst fields))
  | _ => false

/-- `owTxId = ow.string.matches(/^[0-9A-Fa-f]{64}$/)`. -/
def isHexDigitChar (c : Char) : Bool :=
  (('0' ≤ c) && (c ≤ '9')) || (('A' ≤ c) && (c ≤ 'F')) ||
    (('a' ≤ c) && (c ≤ 'f'))

def owTxId : JSValue → Bool
  | .str s => (s.data.length == 64) && s.data.all isHexDigitChar
  | _ => false

/-- C8.  The `prevTxId` validator accepts a string iff it consists of
exactly 64 hexadecimal characters (either case); in particular 64 `a`s are
accepted while 63 `a`s and 64 `g`s are rejected. -/
theorem owTxId_accepts_iff :
    (∀ s : String,
        owTxId (JSValue.str s) = true ↔
          s.data.length = 64 ∧
            ∀ c ∈ s.data,
              ('0' ≤ c ∧ c ≤ '9') ∨ ('A' ≤ c ∧ c ≤ 'F') ∨
                ('a' ≤ c ∧ c ≤ 'f')) ∧
    owTxId (JSValue.str (String.mk (List.replicate 64 'a'))) = true ∧
    owTxId (JSValue.str (String.mk (List.replicate 63 'a'))) = false ∧
    owTxId (JSValue.str (String.mk (List.replicate 64 'g'))) = false := by
  refine ⟨?_, by decide, by decide, by decide⟩
  intro s
  simp only [owTxId, Bool.and_eq_true, beq_iff_eq, List.all_eq_true,
    isHexDigitChar, Bool.or_eq_true, decide_eq_true_eq]
  constructor <;> rintro ⟨h1, h2⟩ <;>
    exact ⟨h1, fun c hc => by have := h2 c hc; tauto⟩

/-- `owInputAddressParams`: exact shape with two positive-integer signer
counts, then the cross-field check
`totalSigners >= requiredSigners` from the chained `.validate`. -/
def owInputAddressParams (v : JSValue) : Bool :=
  exactShape
    [("requiredSigners", requiredField owNumberIntegerGreaterThanZero),
     ("totalSigners", requiredField owNumberIntegerGreaterThanZero)] v &&
    (match v with
     | .obj fields =>
         match jsLookup "totalSigners" fields, jsLookup "requiredSigners" fields with
         | some (.num t), some (.num r) => decide (r ≤ t)
         | _, _ => false
     | _ => false)

/-- C7.  `owInputAddressParams` accepts a two-field candidate iff both
signer counts are integers greater than 0 and
`totalSigners >= requiredSigners`; `{requiredSigners: 2, totalSigners: 3}`
is accepted and `{requiredSigners: 3, totalSigners: 2}` is rejected. -/
theorem owInputAddressParams_accepts_iff :
    (∀ r t : ℚ,
        owInputAddressParams (JSValue.obj
            [("requiredSigners", JSValue.num r),
             ("totalSigners", JSValue.num t)]) = true ↔
          r.den = 1 ∧ 0 < r ∧ t.den = 1 ∧ 0 < t ∧ r ≤ t) ∧
    owInputAddressParams (JSValue.obj
        [("requiredSigners", JSValue.num 2),
         ("totalSigners", JSValue.num 3)]) = true ∧
    owInputAddressParams (JSValue.obj
        [("requiredSigners", JSValue.num 3),
         ("totalSigners", JSValue.num 2)]) = false := by
  refine ⟨?_, by decide, by decide⟩
  intro r t
  have hr : jsLookup "requiredSigners"
      [("requiredSigners", JSValue.num r), ("totalSigners", JSValue.num t)] =
        some (JSValue.num r) := rfl
  have ht : jsLookup "totalSigners"
      [("requiredSigners", JSValue.num r), ("totalSigners", JSValue.num t)] =
        some (JSValue.num t) := rfl
  simp only [owInputAddressParams, exactShape, List.all_cons, List.all_nil,
    List.any_cons, List.any_nil, hr, ht, requiredField,
    owNumberIntegerGreaterThanZero, Bool.and_eq_true, beq_iff_eq,
    decide_eq_true_eq, Bool.or_eq_true, Bool.and_true, Bool.true_and]
  constructor
  · rintro ⟨⟨-, ⟨hrd, hrpos⟩, ⟨htd, htpos⟩⟩, hle⟩
    exact ⟨hrd, hrpos, htd, htpos, hle⟩
  · rintro ⟨hrd, hrpos, htd, htpos, hle⟩
    exact ⟨⟨by simp, ⟨hrd, hrpos⟩, ⟨htd, htpos⟩⟩, hle⟩

/-- `owDepositTransactionOptions`: exact shape with `stakingAddress` a
plain `ow.string` and the optional network-configuration override.  The
network-configuration predicate `owOptionalNetworkConfig` lives in
`network/types`, which is not among the sources, so the validator is
parametrised by it. -/
def owDepositTransactionOptions
    (owOptionalNetworkConfig : Option JSValue → Bool) : JSValue → Bool :=
  exactShape
    [("stakingAddress", requiredField jsIsString),
     ("network", owOptionalNetworkConfig)]

/-- `owUnbondTransactionBuilderOptions`: exact shape with a plain-string
`stakingAddress`, an `int16` nonce, an `owCoin` amount, and the optional
network override. -/
def owUnbondTransactionBuilderOptions
    (owOptionalNetworkConfig : Option JSValue → Bool) : JSValue → Bool :=
  exactShape
    [("stakingAddress", requiredField jsIsString),
     ("nonce", requiredField owNumberInt16),
     ("amount", requiredField owCoin),
     ("network", owOptionalNetworkConfig)]

/-- C6.  Exact-shape enforcement for the Deposit options: an object that
additionally carries an `amount` field is rejected even though the amount
value is itself a valid coin amount; more generally any field outside
`{stakingAddress, network}` makes the Deposit validator fail, whatever the
network-configuration predicate is. -/
theorem owDepositTransactionOptions_rejects_extra_fields :
    owCoin (JSValue.bigNum (BNVal.fin 1000 0)) = true ∧
    (∀ netCfg : Option JSValue → Bool,
        owDepositTransactionOptions netCfg (JSValue.obj
            [("stakingAddress", JSValue.str "0x89aabb"),
             ("amount", JSValue.bigNum (BNVal.fin 1000 0))]) = false) ∧
    (∀ (netCfg : Option JSValue → Bool) (fields : List (String × JSValue))
        (k : String) (v : JSValue),
        (k, v) ∈ fields → k ≠ "stakingAddress" → k ≠ "network" →
          owDepositTransactionOptions netCfg (JSValue.obj fields) = false) := by
  refine ⟨by decide, fun netCfg => rfl, ?_⟩
  intro netCfg fields k v hmem hk1 hk2
  simp only [owDepositTransactionOptions, exactShape]
  have hall : fields.all
      (fun kv =>
        [("stakingAddress", requiredField jsIsString),
         ("network", netCfg)].any (fun sc => sc.fst == kv.fst)) = false := by
    rw [Bool.eq_false_iff]
    intro hcontra
    rw [List.all_eq_true] at hcontra
    have := hcontra (k, v) hmem
    simp only [List.any_cons, List.any_nil, Bool.or_eq_true, beq_iff_eq] at this
    rcases this with h | h | h
    · exact hk1 h.symm
    · exact hk2 h.symm
    · exact Bool.noConfusion h
  rw [hall, Bool.false_and]

/-- Witness for C6: the concrete extra field `amount` on an otherwise
well-formed Deposit option object triggers the general rejection. -/
theorem owDepositTransactionOptions_rejects_extra_fields_witness :
    owDepositTransactionOptions (fun x => x.isNone) (JSValue.obj
        [("stakingAddress", JSValue.str "0x89aabb"),
         ("amount", JSValue.bigNum (BNVal.fin 1000 0))]) = false :=
  owDepositTransactionOptions_rejects_extra_fields.2.2 (fun x => x.isNone)
    [("stakingAddress", JSValue.str "0x89aabb"),
     ("amount", JSValue.bigNum (BNVal.fin 1000 0))]
    "amount" (JSValue.bigNum (BNVal.fin 1000 0))
    (by simp) (by decide) (by decide)

/-- C5 counterexample: `"zzz"` has no recognised network prefix, yet the
Deposit option validator accepts it as `stakingAddress` — the option sets
validate the staking address as a plain string, with no network
dispatch. -/
theorem stakingAddress_no_dispatch_counterexample :
    getTransferAddressNetwork "zzz" = none ∧
      owDepositTransactionOptions (fun x => x.isNone) (JSValue.obj
          [("stakingAddress", JSValue.str "zzz")]) = true := by
  exact ⟨by decide, rfl⟩

/-- C5 amended.  The builder option sets do not network-dispatch the
staking address: Deposit and Unbond accept any string whatsoever as
`stakingAddress` (given otherwise valid fields and a network predicate
that accepts absence), and the staking-address validator itself is a bare
delegation to the external engine with no prefix resolution. -/
theorem builderOptions_stakingAddress_plain_string :
    (∀ (netCfg : Option JSValue → Bool) (s : String),
        netCfg none = true →
          owDepositTransactionOptions netCfg (JSValue.obj
              [("stakingAddress", JSValue.str s)]) = true) ∧
    (∀ (netCfg : Option JSValue → Bool) (s : String),
        netCfg none = true →
          owUnbondTransactionBuilderOptions netCfg (JSValue.obj
              [("stakingAddress", JSValue.str s),
               ("nonce", JSValue.num 5),
               ("amount", JSValue.bigNum (BNVal.fin 1000 0))]) = true) ∧
    (∀ (engine : String → Bool) (s : String),
        validateStakingAddress engine s = engine s) := by
  refine ⟨?_, ?_, fun engine s => rfl⟩
  · intro netCfg s h
    have h1 : jsLookup "stakingAddress" [("stakingAddress", JSValue.str s)] =
        some (JSValue.str s) := rfl
    have h2 : jsLookup "network" [("stakingAddress", JSValue.str s)] = none := rfl
    simp [owDepositTransactionOptions, exactShape, h1, h2, requiredField,
      jsIsString, h]
  · intro netCfg s h
    have h1 : jsLookup "stakingAddress"
        [("stakingAddress", JSValue.str s), ("nonce", JSValue.num 5),
         ("amount", JSValue.bigNum (BNVal.fin 1000 0))] =
          some (JSValue.str s) := rfl
    have h2 : jsLookup "nonce"
        [("stakingAddress", JSValue.str s), ("nonce", JSValue.num 5),
         ("amount", JSValue.bigNum (BNVal.fin 1000 0))] =
          some (JSValue.num 5) := rfl
    have h3 : jsLookup "amount"
        [("stakingAddress", JSValue.str s), ("nonce", JSValue.num 5),
         ("amount", JSValue.bigNum (BNVal.fin 1000 0))] =
          some (JSValue.bigNum (BNVal.fin 1000 0)) := rfl
    have h4 : jsLookup "network"
        [("stakingAddress", JSValue.str s), ("nonce", JSValue.num 5),
         ("amount", JSValue.bigNum (BNVal.fin 1000 0))] = none := rfl
    simp [owUnbondTransactionBuilderOptions, exactShape, h1, h2, h3, h4,
      requiredField, jsIsString, h, owNumberInt16, owCoin, bnIsInteger,
      bnIsGreaterThanOrEqualToZero, bnIsLessThanOrEqualToMaxCoin]
    norm_num [MAX_COIN_INT]

/-! ### Decimal printing and parsing of BigNumber values

`stakedState.bonded.toString(10)` and `new BigNumber(string)` are calls
into the external `bignumber.js` library.  They are modelled concretely:
`toString(10)` renders the decimal value in plain base-10 positional
notation (never exponential, since an explicit base is given), and the
constructor parses such notation back, yielding `NaN` on anything it does
not recognise (the library's behaviour on unparseable input).  The
library's additional input forms (exponent notation, hex, leading `+`)
are not exercised by any claim. -/

def digitChar (d : Nat) : Char := Char.ofNat (48 + d)

def charDigit (c : Char) : Nat := c.toNat - 48

def isDigitChar (c : Char) : Bool := ('0' ≤ c) && (c ≤ '9')

lemma charDigit_digitChar : ∀ d : Nat, d < 10 → charDigit (digitChar d) = d := by
  decide

lemma isDigitChar_digitChar : ∀ d : Nat, d < 10 → isDigitChar (digitChar d) = true := by
  decide

/-- Most-significant-first decimal digit characters of `n` (`"0"` for 0). -/
def natToDigits (n : Nat) : List Char :=
  if n = 0 then ['0'] else (Nat.digits 10 n).reverse.map digitChar

/-- Exactly `k` decimal digit characters of `n % 10^k`, zero-padded on the
left (the fractional part of a decimal rendering). -/
def padDigits : Nat → Nat → List Char
  | 0, _ => []
  | k + 1, n => padDigits k (n / 10) ++ [digitChar (n % 10)]

/-- Value of a most-significant-first digit-character list. -/
def digitsToNat (l : List Char) : Nat :=
  l.foldl (fun a c => a * 10 + charDigit c) 0

lemma foldl_digits_acc (B : List Char) : ∀ acc : Nat,
    B.foldl (fun a c => a * 10 + charDigit c) acc =
      acc * 10 ^ B.length + digitsToNat B := by
  induction B with
  | nil => intro acc; simp [digitsToNat]
  | cons c B ih =>
      intro acc
      show B.foldl _ (acc * 10 + charDigit c) = _
      rw [ih (acc * 10 + charDigit c)]
      have h0 : digitsToNat (c :: B) = charDigit c * 10 ^ B.length + digitsToNat B := by
        show B.foldl _ (0 * 10 + charDigit c) = _
        rw [ih (0 * 10 + charDigit c)]
        ring
      rw [h0, List.length_cons, pow_succ]
      ring

lemma digitsToNat_append (A B : List Char) :
    digitsToNat (A ++ B) = digitsToNat A * 10 ^ B.length + digitsToNat B := by
  unfold digitsToNat
  rw [List.foldl_append]
  exact foldl_digits_acc B _

lemma digitsToNat_map_digitChar (ds : List Nat) (h : ∀ x ∈ ds, x < 10) :
    digitsToNat (ds.reverse.map digitChar) = Nat.ofDigits 10 ds := by
  induction ds with
  | nil => simp [digitsToNat]
  | cons d t ih =>
      rw [List.reverse_cons, List.map_append, digitsToNat_append]
      have ht : ∀ x ∈ t, x < 10 := fun x hx => h x (List.mem_cons_of_mem _ hx)
      have hd : d < 10 := h d (List.mem_cons_self d t)
      rw [ih ht]
      have h1 : digitsToNat [digitChar d] = d := by
        show 0 * 10 + charDigit (digitChar d) = d
        rw [charDigit_digitChar d hd]
        ring
      simp only [List.map_cons, List.map_nil, List.length_cons, List.length_nil]
      rw [h1, Nat.ofDigits_cons]
      ring

lemma digitsToNat_natToDigits (n : Nat) : digitsToNat (natToDigits n) = n := by
  by_cases h : n = 0
  · subst h; decide
  · unfold natToDigits
    rw [if_neg h,
      digitsToNat_map_digitChar _ (fun x hx => Nat.digits_lt_base (by norm_num) hx)]
    exact Nat.ofDigits_digits 10 n

lemma natToDigits_all_digits (n : Nat) :
    ∀ c ∈ natToDigits n, isDigitChar c = true := by
  intro c hc
  unfold natToDigits at hc
  by_cases h : n = 0
  · rw [if_pos h] at hc
    simp only [List.mem_singleton] at hc
    subst hc
    decide
  · rw [if_neg h] at hc
    simp only [List.mem_map, List.mem_reverse] at hc
    obtain ⟨d, hd, rfl⟩ := hc
    exact isDigitChar_digitChar d (Nat.digits_lt_base (by norm_num) hd)

lemma natToDigits_ne_nil (n : Nat) : natToDigits n ≠ [] := by
  unfold natToDigits
  by_cases h : n = 0
  · rw [if_pos h]; simp
  · rw [if_neg h]
    simp [Nat.digits_ne_nil_iff_ne_zero.mpr h]

lemma natToDigits_head_digit (n : Nat) :
    ∃ c cs, natToDigits n = c :: cs ∧ isDigitChar c = true := by
  cases hA : natToDigits n with
  | nil => exact absurd hA (natToDigits_ne_nil n)
  | cons c cs =>
      refine ⟨c, cs, rfl, natToDigits_all_digits n c ?_⟩
      rw [hA]
      exact List.mem_cons_self c cs

lemma padDigits_length (k : Nat) : ∀ n : Nat, (padDigits k n).length = k := by
  induction k with
  | zero => intro n; rfl
  | succ k ih => intro n; simp [padDigits, ih]

lemma padDigits_all_digits (k : Nat) : ∀ (n : Nat), ∀ c ∈ padDigits k n,
    isDigitChar c = true := by
  induction k with
  | zero => intro n c hc; simp [padDigits] at hc
  | succ k ih =>
      intro n c hc
      simp only [padDigits, List.mem_append, List.mem_singleton] at hc
      rcases hc with hc | rfl
      · exact ih _ c hc
      · exact isDigitChar_digitChar _ (Nat.mod_lt n (by norm_num))

lemma digitsToNat_padDigits (k : Nat) : ∀ n : Nat,
    digitsToNat (padDigits k n) = n % 10 ^ k := by
  induction k with
  | zero => intro n; simp [padDigits, digitsToNat, Nat.mod_one]
  | succ k ih =>
      intro n
      rw [padDigits, digitsToNat_append, ih]
      have h1 : digitsToNat [digitChar (n % 10)] = n % 10 := by
        show 0 * 10 + charDigit (digitChar (n % 10)) = n % 10
        rw [charDigit_digitChar _ (Nat.mod_lt n (by norm_num))]
        ring
      have h2 : (List.length [digitChar (n % 10)]) = 1 := rfl
      have hdiv : n % (10 * 10 ^ k) / 10 = n / 10 % 10 ^ k :=
        Nat.mod_mul_right_div_self n 10 (10 ^ k)
      have hmod : n % (10 * 10 ^ k) % 10 = n % 10 :=
        Nat.mod_mod_of_dvd n ⟨10 ^ k, rfl⟩
      have h3 : n % (10 * 10 ^ k) = 10 * (n / 10 % 10 ^ k) + n % 10 := by
        calc n % (10 * 10 ^ k)
            = 10 * (n % (10 * 10 ^ k) / 10) + n % (10 * 10 ^ k) % 10 :=
              (Nat.div_add_mod _ 10).symm
          _ = 10 * (n / 10 % 10 ^ k) + n % 10 := by rw [hdiv, hmod]
      rw [h1, h2]
      conv_rhs => rw [pow_succ']
      rw [h3]
      ring

lemma takeWhile_append_cons (p : Char → Bool) (A : List Char) (x : Char)
    (B : List Char) (hA : ∀ c ∈ A, p c = true) (hx : p x = false) :
    (A ++ x :: B).takeWhile p = A := by
  induction A with
  | nil => simp [List.takeWhile_cons, hx]
  | cons a A ih =>
      have ha : p a = true := hA a (List.mem_cons_self a A)
      simp [List.takeWhile_cons, ha,
        ih (fun c hc => hA c (List.mem_cons_of_mem a hc))]

lemma dropWhile_append_cons (p : Char → Bool) (A : List Char) (x : Char)
    (B : List Char) (hA : ∀ c ∈ A, p c = true) (hx : p x = false) :
    (A ++ x :: B).dropWhile p = x :: B := by
  induction A with
  | nil => simp [List.dropWhile_cons, hx]
  | cons a A ih =>
      have ha : p a = true := hA a (List.mem_cons_self a A)
      simp [List.dropWhile_cons, ha,
        ih (fun c hc => hA c (List.mem_cons_of_mem a hc))]

/-- Parse an unsigned decimal-notation character list into a numerator and
a count of decimal places; `none` on anything unrecognised. -/
def parseUnsigned (l : List Char) : Option (Nat × Nat) :=
  let intPart := l.takeWhile isDigitChar
  match l.dropWhile isDigitChar with
  | [] => if intPart.isEmpty then none else some (digitsToNat intPart, 0)
  | c :: rest =>
      if c = '.' && rest.all isDigitChar && !(intPart.isEmpty && rest.isEmpty) then
        some (digitsToNat (intPart ++ rest), rest.length)
      else none

lemma parseUnsigned_all_digits (A : List Char) (hne : A ≠ [])
    (hA : ∀ c ∈ A, isDigitChar c = true) :
    parseUnsigned A = some (digitsToNat A, 0) := by
  unfold parseUnsigned
  rw [List.takeWhile_eq_self_iff.mpr (by simpa using hA),
    List.dropWhile_eq_nil_iff.mpr (by simpa using hA)]
  have : A.isEmpty = false := by
    cases A with
    | nil => exact absurd rfl hne
    | cons a A => rfl
  simp [this]

lemma parseUnsigned_with_dot (A B : List Char) (hAne : A ≠ [])
    (hA : ∀ c ∈ A, isDigitChar c = true)
    (hB : ∀ c ∈ B, isDigitChar c = true) :
    parseUnsigned (A ++ '.' :: B) = some (digitsToNat (A ++ B), B.length) := by
  unfold parseUnsigned
  rw [takeWhile_append_cons _ A '.' B hA (by decide),
    dropWhile_append_cons _ A '.' B hA (by decide)]
  have h1 : B.all isDigitChar = true := List.all_eq_true.mpr hB
  have h2 : A.isEmpty = false := by
    cases A with
    | nil => exact absurd rfl hAne
    | cons a A => rfl
  simp [h1, h2]

/-- `value.toString(10)`: plain base-10 decimal rendering. -/
def bnPrint : BNVal → String
  | .nan => "NaN"
  | .posInf => "Infinity"
  | .negInf => "-Infinity"
  | .fin m d =>
      String.mk
        ((if m < 0 then ['-'] else []) ++ natToDigits (m.natAbs / 10 ^ d) ++
          (if d = 0 then [] else '.' :: padDigits d (m.natAbs % 10 ^ d)))

/-- `new BigNumber(s)`: parse plain decimal notation (with optional
leading minus sign), recognise the special spellings `Infinity` and
`-Infinity`, and produce `NaN` for anything else. -/
def bnParse (s : String) : BNVal :=
  if s.data.head? = some '-' then
    match parseUnsigned s.data.tail with
    | some (n, d) => BNVal.fin (-(n : Int)) d
    | none => if s = "-Infinity" then BNVal.negInf else BNVal.nan
  else
    match parseUnsigned s.data with
    | some (n, d) => BNVal.fin ((n : Int)) d
    | none => if s = "Infinity" then BNVal.posInf else BNVal.nan

lemma parseUnsigned_print_core (n d : Nat) :
    parseUnsigned (natToDigits (n / 10 ^ d) ++
        (if d = 0 then [] else '.' :: padDigits d (n % 10 ^ d))) =
      some (n, d) := by
  by_cases hd : d = 0
  · subst hd
    rw [if_pos rfl, List.append_nil,
      parseUnsigned_all_digits _ (natToDigits_ne_nil _) (natToDigits_all_digits _),
      digitsToNat_natToDigits]
    simp
  · rw [if_neg hd,
      parseUnsigned_with_dot _ _ (natToDigits_ne_nil _) (natToDigits_all_digits _)
        (padDigits_all_digits d _),
      digitsToNat_append, padDigits_length, digitsToNat_natToDigits,
      digitsToNat_padDigits, Nat.mod_mod_of_dvd n dvd_rfl]
    have h : n / 10 ^ d * 10 ^ d + n % 10 ^ d = n := by
      rw [mul_comm]
      exact Nat.div_add_mod n (10 ^ d)
    rw [h]

/-- The decimal rendering of any BigNumber value parses back to exactly
the same value: `toString(10)` followed by the constructor is the
identity. -/
theorem bnParse_bnPrint (b : BNVal) : bnParse (bnPrint b) = b := by
  cases b with
  | nan => decide
  | posInf => decide
  | negInf => decide
  | fin m d =>
      obtain ⟨c, cs, hc, hcd⟩ := natToDigits_head_digit (m.natAbs / 10 ^ d)
      have hcne : ¬(c = '-') := by
        intro h
        rw [h] at hcd
        exact Bool.noConfusion hcd
      by_cases hm : m < 0
      · have hdata : (bnPrint (BNVal.fin m d)).data =
            '-' :: (natToDigits (m.natAbs / 10 ^ d) ++
              (if d = 0 then [] else '.' :: padDigits d (m.natAbs % 10 ^ d))) := by
          show ((if m < 0 then ['-'] else []) ++ _ ++ _) = _
          rw [if_pos hm]
          simp
        unfold bnParse
        rw [hdata]
        have hhead : ('-' :: (natToDigits (m.natAbs / 10 ^ d) ++
            (if d = 0 then [] else '.' :: padDigits d (m.natAbs % 10 ^ d)))).head? =
              some '-' := rfl
        rw [hhead]
        simp only [if_pos rfl, List.tail_cons, parseUnsigned_print_core]
        have : ((m.natAbs : Int)) = -m := by
          have := Int.natAbs_of_nonneg (neg_nonneg.mpr (le_of_lt hm))
          rw [Int.natAbs_neg] at this
          exact this
        rw [this]
        simp
      · have hdata : (bnPrint (BNVal.fin m d)).data =
            natToDigits (m.natAbs / 10 ^ d) ++
              (if d = 0 then [] else '.' :: padDigits d (m.natAbs % 10 ^ d)) := by
          show ((if m < 0 then ['-'] else []) ++ _ ++ _) = _
          rw [if_neg hm]
          simp
        unfold bnParse
        rw [hdata, hc]
        have hhead : ((c :: cs) ++
            (if d = 0 then [] else '.' :: padDigits d (m.natAbs % 10 ^ d))).head? =
              some c := rfl
        rw [hhead]
        rw [if_neg (by simp [hcne])]
        rw [← hc, parseUnsigned_print_core]
        show BNVal.fin ((m.natAbs : Int)) d = BNVal.fin m d
        rw [Int.natAbs_of_nonneg (le_of_not_lt hm)]

/-- Witness for C5's amended statement: the all-accepting engine and the
absence-accepting network predicate at concrete inputs. -/
theorem builderOptions_stakingAddress_plain_string_witness :
    owDepositTransactionOptions (fun x => x.isNone) (JSValue.obj
        [("stakingAddress", JSValue.str "no-such-prefix")]) = true ∧
      validateStakingAddress (fun _ => true) "no-such-prefix" = true := by
  constructor
  · exact builderOptions_stakingAddress_plain_string.1 (fun x => x.isNone)
      "no-such-prefix" rfl
  · rw [builderOptions_stakingAddress_plain_string.2.2 (fun _ => true)
      "no-such-prefix"]

/-! ### The staked-state model and its native conversions -/

/-- The punishment sub-record validator inside `owStakedState`:
`ow.optional.object.exactShape({kind, jailedUntil, slashAmount})`
(the optionality is applied at the field position). -/
def owPunishment : JSValue → Bool :=
  exactShape
    [("kind", requiredField jsIsString),
     ("jailedUntil", requiredField owNumberInteger),
     ("slashAmount", requiredField owBigNumber)]

/-- The council-node sub-record validator inside `owStakedState`. -/
def owCouncilNode : JSValue → Bool :=
  exactShape
    [("name", requiredField jsIsString),
     ("securityContact", optionalField jsIsString),
     ("consensusPubkey", requiredField (exactShape
        [("type", requiredField jsIsString),
         ("value", requiredField jsIsString)]))]

/-- `owStakedState` (lines 237–256): exact shape with an `int16` nonce,
`bonded`/`unbonded` validated only as BigNumbers (`owBigNumber`, not
`owCoin`), an integer `unbondedFrom` timestamp, a staking address
delegated to the external engine, and two optional sub-records. -/
def owStakedState (isStakingAddressValid : String → Bool) : JSValue → Bool :=
  exactShape
    [("nonce", requiredField owNumberInt16),
     ("bonded", requiredField owBigNumber),
     ("unbonded", requiredField owBigNumber),
     ("unbondedFrom", requiredField owNumberInteger),
     ("address", requiredField (owStakingAddress isStakingAddressValid)),
     ("punishment", optionalField owPunishment),
     ("councilNode", optionalField owCouncilNode)]

/-- `owWithdrawUnbondedTransactionBuilderOptions`: exact shape composing
the staked-state validator, the fee-configuration validator (from
`fee/types`, not among the sources, hence a parameter) and the optional
network override. -/
def owWithdrawUnbondedTransactionBuilderOptions
    (isStakingAddressValid : String → Bool)
    (owFeeConfig : JSValue → Bool)
    (owOptionalNetworkConfig : Option JSValue → Bool) : JSValue → Bool :=
  exactShape
    [("stakedState", requiredField (owStakedState isStakingAddressValid)),
     ("feeConfig", requiredField owFeeConfig),
     ("network", owOptionalNetworkConfig)]

/-- `parseStakedStateForNative` (lines 268–278) at the runtime level: the
returned object literal has exactly the five listed properties — the two
amounts rendered with `toString(10)`, `unbondedFrom` renamed to
`unbonded_from`, `nonce` and `address` copied; no other property of the
input is carried over. -/
def parseStakedStateForNative (stakedState : List (String × JSValue)) :
    List (String × JSValue) :=
  [("nonce", (jsLookup "nonce" stakedState).getD JSValue.other),
   ("bonded",
      match jsLookup "bonded" stakedState with
      | some (.bigNum b) => JSValue.str (bnPrint b)
      | _ => JSValue.other),
   ("unbonded",
      match jsLookup "unbonded" stakedState with
      | some (.bigNum b) => JSValue.str (bnPrint b)
      | _ => JSValue.other),
   ("unbonded_from", (jsLookup "unbondedFrom" stakedState).getD JSValue.other),
   ("address", (jsLookup "address" stakedState).getD JSValue.other)]

/-- `parseStakedStateForNodelib` (lines 281–291) at the runtime level:
the returned object literal has exactly the five listed properties — the
amount strings passed to the BigNumber constructor, `unbonded_from`
renamed back to `unbondedFrom`; no bound, range or format check is
performed anywhere. -/
def parseStakedStateForNodelib (stakedState : List (String × JSValue)) :
    List (String × JSValue) :=
  [("nonce", (jsLookup "nonce" stakedState).getD JSValue.other),
   ("bonded",
      match jsLookup "bonded" stakedState with
      | some (.str s) => JSValue.bigNum (bnParse s)
      | _ => JSValue.other),
   ("unbonded",
      match jsLookup "unbonded" stakedState with
      | some (.str s) => JSValue.bigNum (bnParse s)
      | _ => JSValue.other),
   ("unbondedFrom", (jsLookup "unbonded_from" stakedState).getD JSValue.other),
   ("address", (jsLookup "address" stakedState).getD JSValue.other)]

lemma requiredField_bigNum_shape (x : Option JSValue)
    (h : requiredField owBigNumber x = true) :
    ∃ b, x = some (JSValue.bigNum b) := by
  cases x with
  | none => exact Bool.noConfusion h
  | some v =>
      cases v with
      | bigNum b => exact ⟨b, rfl⟩
      | str s => exact Bool.noConfusion h
      | num q => exact Bool.noConfusion h
      | obj o => exact Bool.noConfusion h
      | other => exact Bool.noConfusion h

lemma requiredField_int16_shape (x : Option JSValue)
    (h : requiredField owNumberInt16 x = true) :
    ∃ q, x = some (JSValue.num q) := by
  cases x with
  | none => exact Bool.noConfusion h
  | some v =>
      cases v with
      | num q => exact ⟨q, rfl⟩
      | str s => exact Bool.noConfusion h
      | bigNum b => exact Bool.noConfusion h
      | obj o => exact Bool.noConfusion h
      | other => exact Bool.noConfusion h

lemma requiredField_integer_shape (x : Option JSValue)
    (h : requiredField owNumberInteger x = true) :
    ∃ q, x = some (JSValue.num q) := by
  cases x with
  | none => exact Bool.noConfusion h
  | some v =>
      cases v with
      | num q => exact ⟨q, rfl⟩
      | str s => exact Bool.noConfusion h
      | bigNum b => exact Bool.noConfusion h
      | obj o => exact Bool.noConfusion h
      | other => exact Bool.noConfusion h

lemma requiredField_stakingAddress_shape (engine : String → Bool) (x : Option JSValue)
    (h : requiredField (owStakingAddress engine) x = true) :
    ∃ a, x = some (JSValue.str a) := by
  cases x with
  | none => exact Bool.noConfusion h
  | some v =>
      cases v with
      | str a => exact ⟨a, rfl⟩
      | num q => exact Bool.noConfusion h
      | bigNum b => exact Bool.noConfusion h
      | obj o => exact Bool.noConfusion h
      | other => exact Bool.noConfusion h

lemma owStakedState_field_shapes (engine : String → Bool)
    (o : List (String × JSValue))
    (h : owStakedState engine (JSValue.obj o) = true) :
    (∃ q, jsLookup "nonce" o = some (JSValue.num q)) ∧
      (∃ b, jsLookup "bonded" o = some (JSValue.bigNum b)) ∧
      (∃ b, jsLookup "unbonded" o = some (JSValue.bigNum b)) ∧
      (∃ q, jsLookup "unbondedFrom" o = some (JSValue.num q)) ∧
      (∃ a, jsLookup "address" o = some (JSValue.str a)) := by
  simp only [owStakedState, exactShape, List.all_cons, List.all_nil,
    Bool.and_eq_true, and_true] at h
  obtain ⟨-, hn, hb, hu, hf, ha, -, -⟩ := h
  exact ⟨requiredField_int16_shape _ hn, requiredField_bigNum_shape _ hb,
    requiredField_bigNum_shape _ hu, requiredField_integer_shape _ hf,
    requiredField_stakingAddress_shape engine _ ha⟩

/-- C4.  For every object accepted by the staked-state validator,
converting to native form and back reconstructs the original `bonded` and
`unbonded` BigNumbers exactly (the decimal-string rendering re-parses to
the same value) and leaves `nonce`, `unbondedFrom` and `address`
unchanged. -/
theorem parseStakedState_roundtrip (engine : String → Bool)
    (o : List (String × JSValue))
    (h : owStakedState engine (JSValue.obj o) = true) :
    jsLookup "nonce" (parseStakedStateForNodelib (parseStakedStateForNative o)) =
        jsLookup "nonce" o ∧
      jsLookup "bonded" (parseStakedStateForNodelib (parseStakedStateForNative o)) =
        jsLookup "bonded" o ∧
      jsLookup "unbonded" (parseStakedStateForNodelib (parseStakedStateForNative o)) =
        jsLookup "unbonded" o ∧
      jsLookup "unbondedFrom" (parseStakedStateForNodelib (parseStakedStateForNative o)) =
        jsLookup "unbondedFrom" o ∧
      jsLookup "address" (parseStakedStateForNodelib (parseStakedStateForNative o)) =
        jsLookup "address" o := by
  obtain ⟨⟨qn, hn⟩, ⟨b1, hb1⟩, ⟨b2, hb2⟩, ⟨qu, hu⟩, ⟨a, ha⟩⟩ :=
    owStakedState_field_shapes engine o h
  refine ⟨?_, ?_, ?_, ?_, ?_⟩ <;>
    simp [parseStakedStateForNative, parseStakedStateForNodelib, jsLookup,
      hn, hb1, hb2, hu, ha, bnParse_bnPrint]

/-- Witness for C4: a concrete valid staked state (including a bonded
amount with a fractional digit, which `owBigNumber` does not forbid)
round-trips unchanged. -/
theorem parseStakedState_roundtrip_witness :
    jsLookup "nonce" (parseStakedStateForNodelib (parseStakedStateForNative
        [("nonce", JSValue.num 1),
         ("bonded", JSValue.bigNum (BNVal.fin 100 0)),
         ("unbonded", JSValue.bigNum (BNVal.fin 25 1)),
         ("unbondedFrom", JSValue.num 1587000000),
         ("address", JSValue.str "0x2dfd")])) =
      jsLookup "nonce"
        [("nonce", JSValue.num 1),
         ("bonded", JSValue.bigNum (BNVal.fin 100 0)),
         ("unbonded", JSValue.bigNum (BNVal.fin 25 1)),
         ("unbondedFrom", JSValue.num 1587000000),
         ("address", JSValue.str "0x2dfd")] ∧
    jsLookup "bonded" (parseStakedStateForNodelib (parseStakedStateForNative
        [("nonce", JSValue.num 1),
         ("bonded", JSValue.bigNum (BNVal.fin 100 0)),
         ("unbonded", JSValue.bigNum (BNVal.fin 25 1)),
         ("unbondedFrom", JSValue.num 1587000000),
         ("address", JSValue.str "0x2dfd")])) =
      jsLookup "bonded"
        [("nonce", JSValue.num 1),
         ("bonded", JSValue.bigNum (BNVal.fin 100 0)),
         ("unbonded", JSValue.bigNum (BNVal.fin 25 1)),
         ("unbondedFrom", JSValue.num 1587000000),
         ("address", JSValue.str "0x2dfd")] ∧
    jsLookup "unbonded" (parseStakedStateForNodelib (parseStakedStateForNative
        [("nonce", JSValue.num 1),
         ("bonded", JSValue.bigNum (BNVal.fin 100 0)),
         ("unbonded", JSValue.bigNum (BNVal.fin 25 1)),
         ("unbondedFrom", JSValue.num 1587000000),
         ("address", JSValue.str "0x2dfd")])) =
      jsLookup "unbonded"
        [("nonce", JSValue.num 1),
         ("bonded", JSValue.bigNum (BNVal.fin 100 0)),
         ("unbonded", JSValue.bigNum (BNVal.fin 25 1)),
         ("unbondedFrom", JSValue.num 1587000000),
         ("address", JSValue.str "0x2dfd")] ∧
    jsLookup "unbondedFrom" (parseStakedStateForNodelib (parseStakedStateForNative
        [("nonce", JSValue.num 1),
         ("bonded", JSValue.bigNum (BNVal.fin 100 0)),
         ("unbonded", JSValue.bigNum (BNVal.fin 25 1)),
         ("unbondedFrom", JSValue.num 1587000000),
         ("address", JSValue.str "0x2dfd")])) =
      jsLookup "unbondedFrom"
        [("nonce", JSValue.num 1),
         ("bonded", JSValue.bigNum (BNVal.fin 100 0)),
         ("unbonded", JSValue.bigNum (BNVal.fin 25 1)),
         ("unbondedFrom", JSValue.num 1587000000),
         ("address", JSValue.str "0x2dfd")] ∧
    jsLookup "address" (parseStakedStateForNodelib (parseStakedStateForNative
        [("nonce", JSValue.num 1),
         ("bonded", JSValue.bigNum (BNVal.fin 100 0)),
         ("unbonded", JSValue.bigNum (BNVal.fin 25 1)),
         ("unbondedFrom", JSValue.num 1587000000),
         ("address", JSValue.str "0x2dfd")])) =
      jsLookup "address"
        [("nonce", JSValue.num 1),
         ("bonded", JSValue.bigNum (BNVal.fin 100 0)),
         ("unbonded", JSValue.bigNum (BNVal.fin 25 1)),
         ("unbondedFrom", JSValue.num 1587000000),
         ("address", JSValue.str "0x2dfd")] :=
  parseStakedState_roundtrip (fun _ => true)
    [("nonce", JSValue.num 1),
     ("bonded", JSValue.bigNum (BNVal.fin 100 0)),
     ("unbonded", JSValue.bigNum (BNVal.fin 25 1)),
     ("unbondedFrom", JSValue.num 1587000000),
     ("address", JSValue.str "0x2dfd")]
    (by decide)

/-- C3 counterexample: a WithdrawUnbonded option set whose
`stakedState.unbonded` is `MAX_COIN + 1` — a value the coin validator
itself rejects as out of range — is nevertheless accepted by
`owWithdrawUnbondedTransactionBuilderOptions`, because `owStakedState`
checks `unbonded` only with `owBigNumber`, which carries no range
check. -/
theorem owWithdrawUnbonded_no_range_violation_counterexample :
    owCoin (JSValue.bigNum (BNVal.fin (MAX_COIN_INT + 1) 0)) = false ∧
      owWithdrawUnbondedTransactionBuilderOptions (fun _ => true) (fun _ => true)
        (fun x => x.isNone)
        (JSValue.obj
          [("stakedState", JSValue.obj
              [("nonce", JSValue.num 1),
               ("bonded", JSValue.bigNum (BNVal.fin 0 0)),
               ("unbonded", JSValue.bigNum (BNVal.fin (MAX_COIN_INT + 1) 0)),
               ("unbondedFrom", JSValue.num 0),
               ("address", JSValue.str "0x2dfd")]),
           ("feeConfig", JSValue.obj [])]) = true := by
  exact ⟨by decide, by decide⟩

/-- C3 amended.  The WithdrawUnbonded option-set validator performs no
range check on the staked-state amounts: with shape-valid fields it
accepts `bonded` and `unbonded` being any BigNumber values whatsoever —
in particular values exceeding `MAX_COIN` — whenever the external
staking-address engine, the fee-configuration predicate and the
network-configuration predicate accept their respective parts. -/
theorem owWithdrawUnbonded_accepts_any_bigNumber_amounts
    (engine : String → Bool) (feeCfg : JSValue → Bool)
    (netCfg : Option JSValue → Bool) (bonded unbonded : BNVal)
    (a : String) (fee : JSValue)
    (h1 : engine a = true) (h2 : feeCfg fee = true) (h3 : netCfg none = true) :
    owWithdrawUnbondedTransactionBuilderOptions engine feeCfg netCfg
      (JSValue.obj
        [("stakedState", JSValue.obj
            [("nonce", JSValue.num 1),
             ("bonded", JSValue.bigNum bonded),
             ("unbonded", JSValue.bigNum unbonded),
             ("unbondedFrom", JSValue.num 0),
             ("address", JSValue.str a)]),
         ("feeConfig", fee)]) = true := by
  have i1 : jsLookup "nonce"
      [("nonce", JSValue.num 1), ("bonded", JSValue.bigNum bonded),
       ("unbonded", JSValue.bigNum unbonded), ("unbondedFrom", JSValue.num 0),
       ("address", JSValue.str a)] = some (JSValue.num 1) := rfl
  have i2 : jsLookup "bonded"
      [("nonce", JSValue.num 1), ("bonded", JSValue.bigNum bonded),
       ("unbonded", JSValue.bigNum unbonded), ("unbondedFrom", JSValue.num 0),
       ("address", JSValue.str a)] = some (JSValue.bigNum bonded) := rfl
  have i3 : jsLookup "unbonded"
      [("nonce", JSValue.num 1), ("bonded", JSValue.bigNum bonded),
       ("unbonded", JSValue.bigNum unbonded), ("unbondedFrom", JSValue.num 0),
       ("address", JSValue.str a)] = some (JSValue.bigNum unbonded) := rfl
  have i4 : jsLookup "unbondedFrom"
      [("nonce", JSValue.num 1), ("bonded", JSValue.bigNum bonded),
       ("unbonded", JSValue.bigNum unbonded), ("unbondedFrom", JSValue.num 0),
       ("address", JSValue.str a)] = some (JSValue.num 0) := rfl
  have i5 : jsLookup "address"
      [("nonce", JSValue.num 1), ("bonded", JSValue.bigNum bonded),
       ("unbonded", JSValue.bigNum unbonded), ("unbondedFrom", JSValue.num 0),
       ("address", JSValue.str a)] = some (JSValue.str a) := rfl
  have i6 : jsLookup "punishment"
      [("nonce", JSValue.num 1), ("bonded", JSValue.bigNum bonded),
       ("unbonded", JSValue.bigNum unbonded), ("unbondedFrom", JSValue.num 0),
       ("address", JSValue.str a)] = none := rfl
  have i7 : jsLookup "councilNode"
      [("nonce", JSValue.num 1), ("bonded", JSValue.bigNum bonded),
       ("unbonded", JSValue.bigNum unbonded), ("unbondedFrom", JSValue.num 0),
       ("address", JSValue.str a)] = none := rfl
  have o1 : jsLookup "stakedState"
      [("stakedState", JSValue.obj
          [("nonce", JSValue.num 1), ("bonded", JSValue.bigNum bonded),
           ("unbonded", JSValue.bigNum unbonded), ("unbondedFrom", JSValue.num 0),
           ("address", JSValue.str a)]),
       ("feeConfig", fee)] =
        some (JSValue.obj
          [("nonce", JSValue.num 1), ("bonded", JSValue.bigNum bonded),
           ("unbonded", JSValue.bigNum unbonded), ("unbondedFrom", JSValue.num 0),
           ("address", JSValue.str a)]) := rfl
  have o2 : jsLookup "feeConfig"
      [("stakedState", JSValue.obj
          [("nonce", JSValue.num 1), ("bonded", JSValue.bigNum bonded),
           ("unbonded", JSValue.bigNum unbonded), ("unbondedFrom", JSValue.num 0),
           ("address", JSValue.str a)]),
       ("feeConfig", fee)] = some fee := rfl
  have o3 : jsLookup "network"
      [("stakedState", JSValue.obj
          [("nonce", JSValue.num 1), ("bonded", JSValue.bigNum bonded),
           ("unbonded", JSValue.bigNum unbonded), ("unbondedFrom", JSValue.num 0),
           ("address", JSValue.str a)]),
       ("feeConfig", fee)] = none := rfl
  simp [owWithdrawUnbondedTransactionBuilderOptions, owStakedState, exactShape,
    o1, o2, o3, i1, i2, i3, i4, i5, i6, i7, requiredField, optionalField,
    owBigNumber, owNumberInt16, owNumberInteger, owStakingAddress,
    validateStakingAddress, jsIsString, h1, h2, h3]
  norm_num

/-- Witness for C3's amended statement: the counterexample inputs satisfy
all of the amended theorem's hypotheses. -/
theorem owWithdrawUnbonded_accepts_any_bigNumber_amounts_witness :
    owWithdrawUnbondedTransactionBuilderOptions (fun _ => true) (fun _ => true)
      (fun x => x.isNone)
      (JSValue.obj
        [("stakedState", JSValue.obj
            [("nonce", JSValue.num 1),
             ("bonded", JSValue.bigNum (BNVal.fin 0 0)),
             ("unbonded", JSValue.bigNum (BNVal.fin (MAX_COIN_INT + 1) 0)),
             ("unbondedFrom", JSValue.num 0),
             ("address", JSValue.str "0x2dfd")]),
         ("feeConfig", JSValue.obj [])]) = true :=
  owWithdrawUnbonded_accepts_any_bigNumber_amounts (fun _ => true) (fun _ => true)
    (fun x => x.isNone) (BNVal.fin 0 0) (BNVal.fin (MAX_COIN_INT + 1) 0)
    "0x2dfd" (JSValue.obj []) rfl rfl rfl

/-- C9 counterexample: a staked state carrying a well-formed `punishment`
sub-record is accepted by the validator, yet its native conversion does
not contain the sub-record at all — it is dropped, not passed through. -/
theorem parseStakedStateForNative_drops_punishment_counterexample :
    owStakedState (fun _ => true) (JSValue.obj
        [("nonce", JSValue.num 1),
         ("bonded", JSValue.bigNum (BNVal.fin 1 0)),
         ("unbonded", JSValue.bigNum (BNVal.fin 2 0)),
         ("unbondedFrom", JSValue.num 0),
         ("address", JSValue.str "0x2dfd"),
         ("punishment", JSValue.obj
            [("kind", JSValue.str "NonLive"),
             ("jailedUntil", JSValue.num 1000),
             ("slashAmount", JSValue.bigNum (BNVal.fin 7 0))])]) = true ∧
      jsLookup "punishment"
        [("nonce", JSValue.num 1),
         ("bonded", JSValue.bigNum (BNVal.fin 1 0)),
         ("unbonded", JSValue.bigNum (BNVal.fin 2 0)),
         ("unbondedFrom", JSValue.num 0),
         ("address", JSValue.str "0x2dfd"),
         ("punishment", JSValue.obj
            [("kind", JSValue.str "NonLive"),
             ("jailedUntil", JSValue.num 1000),
             ("slashAmount", JSValue.bigNum (BNVal.fin 7 0))])] =
        some (JSValue.obj
          [("kind", JSValue.str "NonLive"),
           ("jailedUntil", JSValue.num 1000),
           ("slashAmount", JSValue.bigNum (BNVal.fin 7 0))]) ∧
      jsLookup "punishment" (parseStakedStateForNative
        [("nonce", JSValue.num 1),
         ("bonded", JSValue.bigNum (BNVal.fin 1 0)),
         ("unbonded", JSValue.bigNum (BNVal.fin 2 0)),
         ("unbondedFrom", JSValue.num 0),
         ("address", JSValue.str "0x2dfd"),
         ("punishment", JSValue.obj
            [("kind", JSValue.str "NonLive"),
             ("jailedUntil", JSValue.num 1000),
             ("slashAmount", JSValue.bigNum (BNVal.fin 7 0))])]) = none := by
  exact ⟨by decide, rfl, rfl⟩

/-- C9 amended.  Both conversion directions build object literals with
exactly the five scalar fields: whatever the input carries, the native
projection has precisely `nonce, bonded, unbonded, unbonded_from,
address` and the read-back has precisely `nonce, bonded, unbonded,
unbondedFrom, address`; in particular neither output ever contains a
`punishment` or `councilNode` property — the optional sub-records are
dropped by conversion, not passed through. -/
theorem parseStakedState_drops_optional_subrecords
    (o : List (String × JSValue)) :
    (parseStakedStateForNative o).map Prod.fst =
        ["nonce", "bonded", "unbonded", "unbonded_from", "address"] ∧
      (parseStakedStateForNodelib o).map Prod.fst =
        ["nonce", "bonded", "unbonded", "unbondedFrom", "address"] ∧
      jsLookup "punishment" (parseStakedStateForNative o) = none ∧
      jsLookup "councilNode" (parseStakedStateForNative o) = none ∧
      jsLookup "punishment" (parseStakedStateForNodelib o) = none ∧
      jsLookup "councilNode" (parseStakedStateForNodelib o) = none :=
  ⟨rfl, rfl, rfl, rfl, rfl, rfl⟩

/-- C10.  `parseStakedStateForNodelib` is a total conversion with no
bound, range or format checks: every native staked state is converted
verbatim — the nonce and timestamp are copied whatever their magnitude,
the address is copied whatever its form, and each amount string is handed
to the BigNumber constructor (an unparseable string simply becomes `NaN`,
and an out-of-range amount is kept as is).  Concretely, a nonce of 40000
(outside int16, as `owAccountNonce` would reject), the unparseable amount
`"xyz"`, and an amount one above `MAX_COIN` all pass through. -/
theorem parseStakedStateForNodelib_no_validation :
    (∀ (n uf : ℚ) (bs us a : String),
        parseStakedStateForNodelib
            [("nonce", JSValue.num n), ("bonded", JSValue.str bs),
             ("unbonded", JSValue.str us), ("unbonded_from", JSValue.num uf),
             ("address", JSValue.str a)] =
          [("nonce", JSValue.num n),
           ("bonded", JSValue.bigNum (bnParse bs)),
           ("unbonded", JSValue.bigNum (bnParse us)),
           ("unbondedFrom", JSValue.num uf),
           ("address", JSValue.str a)]) ∧
      owNumberInt16 (JSValue.num 40000) = false ∧
      bnParse "xyz" = BNVal.nan ∧
      bnIsLessThanOrEqualToMaxCoin (bnParse "10000000000000000001") = false := by
  exact ⟨fun n uf bs us a => rfl, by decide, by decide, by decide⟩
